import Mathlib

/-!
Verification of the AI-powered code-review pipeline: data model, prioritizer
(scoring, stable descending sort, signature deduplication), feedback-based
confidence calibration, the pattern-matcher analyzer, and the review engine
orchestration.  Definitions are shallow embeddings of the Python source
(`src/engine/prioritizer.py`, `src/engine/review_engine.py`,
`src/learning/feedback_analyzer.py`, `src/analyzers/pattern_matcher.py`,
`src/analyzers/base.py`).  The `src/models` package is not part of the
source tree, so the plain data carriers (enums, records) are modelled from
the specification's data-model section.
-/

/-- Modelled from the spec: the `AnalysisCategory` enum of the missing
`models/analysis` module — security, bug, architecture, performance,
business_logic, test, code_quality, style. -/
inductive AnalysisCategory where
  | security
  | bug
  | architecture
  | performance
  | business_logic
  | test
  | code_quality
  | style
deriving DecidableEq

/-- Modelled from the spec: the `PriorityLevel` enum of the missing
`models/analysis` module — critical, high, medium, low, info. -/
inductive PriorityLevel where
  | critical
  | high
  | medium
  | low
  | info
deriving DecidableEq

/-- Modelled from the spec: `CodeLocation` of the missing `models/review`
module — file path plus 1-based start/end line. -/
structure CodeLocation where
  file_path : String
  line_start : Nat
  line_end : Nat
deriving DecidableEq

/-- Modelled from the spec: `AnalysisResult` (the Finding value) of the
missing `models/analysis` module.  `metadata` is the free-form string map,
modelled as an association list. -/
structure AnalysisResult where
  category : AnalysisCategory
  priority : PriorityLevel
  confidence : ℚ
  location : CodeLocation
  title : String
  description : String
  suggestion : String
  code_snippet : Option String := none
  metadata : List (String × String) := []
deriving DecidableEq

/-- Modelled from the spec: the diff status enum {added, modified, removed,
renamed} of the missing `models/review` module. -/
inductive DiffStatus where
  | added
  | modified
  | removed
  | renamed
deriving DecidableEq

/-- Modelled from the spec: `FileDiff` of the missing `models/review`
module.  `language` is nullable; the empty string is a distinct falsy
value, as in the Python source. -/
structure FileDiff where
  file_path : String
  status : DiffStatus
  additions : Nat := 0
  deletions : Nat := 0
  changes : Nat := 0
  diff : String
  language : Option String
deriving DecidableEq

/-- Modelled from the spec: `TeamContext` (naming conventions and known
team patterns), opaque to every claim considered here. -/
structure TeamContext where
  naming_conventions : List String := []
  known_patterns : List String := []
deriving DecidableEq

/-- Modelled from the spec: `CodeReviewRequest` of the missing
`models/review` module, restricted to the fields the engine and analyzers
read. -/
structure CodeReviewRequest where
  pr_id : String := ""
  title : String := ""
  description : String := ""
  diff : List FileDiff
  team_context : Option TeamContext := none

/-- Modelled from the spec: `FeedbackStats`, consumed by calibration as a
dictionary.  Fields are `Option`-valued to mirror `dict.get` with a
default (`total_feedback` defaults to 0, the positive ratio to 0.5).
The positive-ratio field is called `positiveRate` here. -/
structure FeedbackStats where
  total_feedback : Option Nat := none
  positiveRate : Option ℚ := none

/-- Modelled from the spec: `LearningPattern` of the missing
`models/feedback` module. -/
structure LearningPattern where
  pattern_id : String
  pattern_type : String
  category : String
  pattern_description : String := ""
  file_pattern : Option String := none
  code_pattern : Option String := none
  feedback_count : Nat := 0
  confidence_multiplier : ℚ
  should_apply : Bool := true

/-! ### Character-list string helpers

The Python source works with `str` operations (`in`, `startswith`,
`lower()`, slicing, `split`).  They are modelled structurally over the
character list of a `String` so that every definition evaluates by kernel
reduction. -/

/-- `startsWithChars p s` models Python `s.startswith(p)` on character
lists. -/
def startsWithChars : List Char → List Char → Bool
  | [], _ => true
  | _ :: _, [] => false
  | a :: as, b :: bs => a = b && startsWithChars as bs

/-- `containsChars n h` models Python `n in h` (substring containment). -/
def containsChars (needle : List Char) : List Char → Bool
  | [] => needle.isEmpty
  | c :: rest => startsWithChars needle (c :: rest) || containsChars needle rest

/-- Accumulator pass for `splitLines`; models Python `s.split(chr(10))`. -/
def splitLinesAux (acc : List Char) : List Char → List (List Char)
  | [] => [acc.reverse]
  | c :: rest =>
    if c = '\n' then acc.reverse :: splitLinesAux [] rest
    else splitLinesAux (c :: acc) rest

/-- Models Python `s.split(chr(10))` over a string's characters. -/
def splitLines (s : String) : List (List Char) :=
  splitLinesAux [] s.data

/-- Models Python `s.lower()` over a string's characters. -/
def lowerChars (s : String) : List Char :=
  s.data.map Char.toLower

/-! ### Prioritizer (`src/engine/prioritizer.py`) -/

/-- `Prioritizer.CATEGORY_WEIGHTS`: category importance weights. -/
def CATEGORY_WEIGHTS : AnalysisCategory → ℚ
  | .security => 10
  | .bug => 8
  | .architecture => 6
  | .performance => 5
  | .business_logic => 7
  | .test => 4
  | .code_quality => 3
  | .style => 1

/-- `Prioritizer.PRIORITY_WEIGHTS`: priority level weights. -/
def PRIORITY_WEIGHTS : PriorityLevel → ℚ
  | .critical => 10
  | .high => 7
  | .medium => 4
  | .low => 2
  | .info => 1

/-- The `critical_keywords` list of `Prioritizer._is_critical_file`. -/
def criticalKeywords : List String :=
  ["auth", "payment", "security", "encrypt", "secret",
   "admin", "permission", "access"]

/-- `Prioritizer._is_critical_file`: any critical keyword occurs in the
lower-cased file path. -/
def isCriticalFile (file_path : String) : Bool :=
  criticalKeywords.any (fun keyword => containsChars keyword.data (lowerChars file_path))

/-- `Prioritizer._calculate_score`: category weight × priority weight ×
confidence, ×1.5 on a critical file, ×1.2 for the security category. -/
def calculateScore (result : AnalysisResult) : ℚ :=
  let category_weight := CATEGORY_WEIGHTS result.category
  let priority_weight := PRIORITY_WEIGHTS result.priority
  let confidence_weight := result.confidence
  let base_score := category_weight * priority_weight * confidence_weight
  let base_score := if isCriticalFile result.location.file_path then base_score * 1.5 else base_score
  let base_score := if result.category = .security then base_score * 1.2 else base_score
  base_score

/-- The deduplication signature of `Prioritizer._deduplicate`: file path,
start line, category, first 50 characters of the title. -/
def signature (result : AnalysisResult) : String × Nat × AnalysisCategory × List Char :=
  (result.location.file_path, result.location.line_start, result.category,
   result.title.data.take 50)

/-- The descending-score comparison used by `prioritize`'s stable sort
(`sort(key, reverse=True)` keeps equal-score results in input order). -/
def scoreRel (a b : AnalysisResult) : Prop :=
  calculateScore b ≤ calculateScore a

instance : DecidableRel scoreRel := fun a b =>
  inferInstanceAs (Decidable (calculateScore b ≤ calculateScore a))

instance : IsTotal AnalysisResult scoreRel :=
  ⟨fun a b => le_total (calculateScore b) (calculateScore a)⟩

instance : IsTrans AnalysisResult scoreRel :=
  ⟨fun _ _ _ h1 h2 => le_trans h2 h1⟩

/-- The loop of `Prioritizer._deduplicate`: keep a result only when its
signature has not been seen yet. -/
def dedupLoop (seen : List (String × Nat × AnalysisCategory × List Char)) :
    List AnalysisResult → List AnalysisResult
  | [] => []
  | result :: rest =>
    if signature result ∈ seen then dedupLoop seen rest
    else result :: dedupLoop (signature result :: seen) rest

/-- `Prioritizer._deduplicate`. -/
def deduplicate (results : List AnalysisResult) : List AnalysisResult :=
  dedupLoop [] results

/-- `Prioritizer.prioritize`: score, sort descending (stable), then
deduplicate. -/
def prioritize (results : List AnalysisResult) : List AnalysisResult :=
  deduplicate (List.insertionSort scoreRel results)

example :
    calculateScore
      { category := .security, priority := .critical, confidence := 1,
        location := ⟨"auth/login.py", 1, 1⟩, title := "t", description := "", suggestion := "" }
      = 180 := by with_unfolding_all decide

example :
    calculateScore
      { category := .style, priority := .info, confidence := 1,
        location := ⟨"encrypt.py", 1, 1⟩, title := "t", description := "", suggestion := "" }
      = 3 / 2 := by with_unfolding_all decide

/-! ### Feedback analyzer (`src/learning/feedback_analyzer.py`) -/

/-- The `.value` string of an `AnalysisCategory` member, as the spec's
enum names it. -/
def categoryValue : AnalysisCategory → String
  | .security => "security"
  | .bug => "bug"
  | .architecture => "architecture"
  | .performance => "performance"
  | .business_logic => "business_logic"
  | .test => "test"
  | .code_quality => "code_quality"
  | .style => "style"

/-- The `.value` string of a `PriorityLevel` member. -/
def priorityValue : PriorityLevel → String
  | .critical => "critical"
  | .high => "high"
  | .medium => "medium"
  | .low => "low"
  | .info => "info"

/-- The learning-pattern key built inside `adjust_confidence`:
`category.value + underscore + priority.value`. -/
def patternKey (result : AnalysisResult) : String :=
  categoryValue result.category ++ "_" ++ priorityValue result.priority

/-- `FeedbackAnalyzer.adjust_confidence`, given the analyzer's in-memory
`learning_patterns` table (an association list keyed by pattern id) and the
already-fetched feedback stats (`none` models both an absent and an empty
stats dictionary, which are falsy in Python). -/
def adjust_confidence (learning_patterns : List (String × LearningPattern))
    (result : AnalysisResult) (feedback_stats : Option FeedbackStats) : ℚ :=
  match feedback_stats with
  | none => result.confidence
  | some stats =>
    if stats.total_feedback.getD 0 = 0 then result.confidence
    else
      let pattern := learning_patterns.lookup (patternKey result)
      let multiplier := match pattern with
        | some p => p.confidence_multiplier
        | none => 1
      let ratio_adjustment := (stats.positiveRate.getD 0.5 - 0.5) * 0.2
      let adjusted := result.confidence * multiplier + ratio_adjustment
      max 0 (min 1 adjusted)

/-! ### Pattern matcher (`src/analyzers/pattern_matcher.py`) -/

/-- One entry of the `PatternMatcher` pattern table.  `matcher` models
`re.compile(pattern).finditer` over one added line's content together with
the ±20-character snippet slicing: it returns the snippet of every match
of the configured regex in the line. -/
structure PatternConfig where
  matcher : List Char → List (List Char)
  category : AnalysisCategory
  priority : PriorityLevel
  confidence : ℚ
  message : String
  suggestion : String

/-- The line loop of `PatternMatcher._find_pattern_matches`: skip diff
headers, count non-removed lines, and report a match location (at the
given file path) plus snippet for every regex match on an added line. -/
def findMatchesLoop (matcher : List Char → List (List Char)) (file_path : String) :
    Nat → List (List Char) → List (CodeLocation × List Char)
  | _, [] => []
  | current_line, line :: rest =>
    if startsWithChars "---".data line || startsWithChars "+++".data line ||
        startsWithChars "@@".data line || startsWithChars "diff".data line then
      findMatchesLoop matcher file_path current_line rest
    else if startsWithChars "+".data line && !startsWithChars "+++".data line then
      let line_content := line.drop 1
      ((matcher line_content).map fun snippet =>
        (CodeLocation.mk file_path (current_line + 1) (current_line + 1), snippet))
        ++ findMatchesLoop matcher file_path (current_line + 1) rest
    else if !startsWithChars "-".data line then
      findMatchesLoop matcher file_path (current_line + 1) rest
    else
      findMatchesLoop matcher file_path current_line rest

/-- `PatternMatcher._find_pattern_matches`. -/
def find_pattern_matches (matcher : List Char → List (List Char))
    (diff_content : String) (file_path : String) : List (CodeLocation × List Char) :=
  findMatchesLoop matcher file_path 0 (splitLines diff_content)

/-- The per-diff body of `PatternMatcher.analyze`: removed diffs and
diffs with a falsy (`None`/empty) or `"binary"` language produce nothing;
otherwise every pattern's matches become results located at the diff's
path. -/
def analyzeFileDiff (patterns : List (String × PatternConfig)) (file_diff : FileDiff) :
    List AnalysisResult :=
  if file_diff.status = .removed then []
  else if file_diff.language = none || file_diff.language = some "" ||
      file_diff.language = some "binary" then []
  else
    (patterns.map fun (pattern_name, config) =>
      (find_pattern_matches config.matcher file_diff.diff file_diff.file_path).map
        fun m =>
          { category := config.category
            priority := config.priority
            confidence := config.confidence
            location := m.1
            title := config.message
            description := "Found " ++ pattern_name ++ " pattern in " ++ file_diff.file_path
            suggestion := config.suggestion
            code_snippet := some (String.mk m.2)
            metadata := [("pattern_name", pattern_name)] }).flatten

/-- `BaseAnalyzer._filter_by_confidence`. -/
def filter_by_confidence (results : List AnalysisResult) (min_confidence : ℚ) :
    List AnalysisResult :=
  results.filter fun r => min_confidence ≤ r.confidence

/-- `PatternMatcher.analyze`: scan every diff of the request against every
configured pattern, then apply the analyzer-level confidence floor 0.5. -/
def patternMatcherAnalyze (patterns : List (String × PatternConfig))
    (request : CodeReviewRequest) : List AnalysisResult :=
  filter_by_confidence ((request.diff.map (analyzeFileDiff patterns)).flatten) 0.5

/-! ### Review engine (`src/engine/review_engine.py`)

`ReviewEngine.review` is embedded with its collaborators passed
explicitly: each analyzer and each external call that the Python code can
observe failing is `Except`-valued.  A call the code wraps in
`try/except` has its error swallowed here exactly where the code swallows
it; a call the code leaves unwrapped propagates its error. -/

/-- The engine-level configuration taken by `ReviewEngine.__init__`. -/
structure EngineConfig where
  min_confidence : ℚ := 0.6
  max_results : Nat := 50
  enable_historical : Bool := true
  enable_learning : Bool := true

/-- The dictionary assembled by `ReviewEngine._gather_historical_context`
(its internal failures already degrade to a partial dictionary inside
that method, so it is modelled as total). -/
structure HistoricalData where
  similar_prs : List String := []
  bug_patterns : List String := []
  team_patterns : List String := []

/-- The engine's external collaborators: the team-patterns loader, the
historical store, and the per-result learning adjustment performed by
`_apply_learning` (metadata id generation, `adjust_confidence`, and the
confidence-level update, whose internal errors the code catches
per result). -/
structure Collaborators where
  teamContext : TeamContext
  storePr : CodeReviewRequest → Except String Unit
  gatherHist : CodeReviewRequest → HistoricalData
  enhance : List AnalysisResult → HistoricalData → Except String (List AnalysisResult)
  adjustLearn : AnalysisResult → Except String AnalysisResult

/-- The analyzer fan-out loop of `ReviewEngine.review`: a raising
analyzer is skipped and the remaining analyzers' results are kept. -/
def runAnalyzers (analyzers : List (CodeReviewRequest → Except String (List AnalysisResult)))
    (request : CodeReviewRequest) : List AnalysisResult :=
  match analyzers with
  | [] => []
  | analyzer :: rest =>
    (match analyzer request with
     | .ok results => results
     | .error _ => []) ++ runAnalyzers rest request

/-- `ReviewEngine._apply_learning`: each result is adjusted
independently; a failing adjustment keeps the original result. -/
def applyLearning (adjustLearn : AnalysisResult → Except String AnalysisResult)
    (results : List AnalysisResult) : List AnalysisResult :=
  results.map fun r =>
    match adjustLearn r with
    | .ok adjusted => adjusted
    | .error _ => r

/-- `ReviewEngine.review`: load team context if absent, store PR data
(failure swallowed), run all analyzers (failures isolated), enhance with
historical context (not wrapped: its error propagates), apply learning,
filter by the engine confidence threshold, prioritize/deduplicate, and
truncate to `max_results`. -/
def review (cfg : EngineConfig) (collab : Collaborators)
    (analyzers : List (CodeReviewRequest → Except String (List AnalysisResult)))
    (request : CodeReviewRequest) : Except String (List AnalysisResult) :=
  let request :=
    match request.team_context with
    | none => { request with team_context := some collab.teamContext }
    | some _ => request
  -- store_pr_data is wrapped in try/except and only logs a warning on
  -- failure; it has no effect on the returned findings
  let _ := if cfg.enable_historical then (collab.storePr request).toOption else none
  let all_results := runAnalyzers analyzers request
  let enhanced :=
    if cfg.enable_historical then
      collab.enhance all_results (collab.gatherHist request)
    else .ok all_results
  match enhanced with
  | .error e => .error e
  | .ok all_results =>
    let all_results :=
      if cfg.enable_learning then applyLearning collab.adjustLearn all_results
      else all_results
    let filtered_results := all_results.filter fun r => cfg.min_confidence ≤ r.confidence
    let prioritized_results := prioritize filtered_results
    .ok (prioritized_results.take cfg.max_results)

/-! ### Spec-side definitions

For the refinement claims, a second set of definitions follows the spec's
words verbatim, to be compared with the embeddings of the source above. -/

/-- Spec-side: category weights as the spec words them — security 10,
bug 8, business_logic 7, architecture 6, performance 5, test 4,
code_quality 3, style 1. -/
def specCategoryWeight : AnalysisCategory → ℚ
  | .security => 10
  | .bug => 8
  | .business_logic => 7
  | .architecture => 6
  | .performance => 5
  | .test => 4
  | .code_quality => 3
  | .style => 1

/-- Spec-side: priority weights — critical 10, high 7, medium 4, low 2,
info 1. -/
def specPriorityWeight : PriorityLevel → ℚ
  | .critical => 10
  | .high => 7
  | .medium => 4
  | .low => 2
  | .info => 1

/-- Spec-side: the critical keyword set exactly as the spec lists it —
auth, payment, security, secret, admin, permission, access. -/
def specCriticalKeywords : List String :=
  ["auth", "payment", "security", "secret", "admin", "permission", "access"]

/-- Spec-side: case-insensitive substring match against the spec's
keyword set. -/
def specIsCriticalFile (file_path : String) : Bool :=
  specCriticalKeywords.any (fun keyword => containsChars keyword.data (lowerChars file_path))

/-- Spec-side: the score formula exactly as the claim words it (with the
spec's seven-keyword critical set, and the 1.5 boost for no other path). -/
def specScore (result : AnalysisResult) : ℚ :=
  let base := specCategoryWeight result.category * specPriorityWeight result.priority *
    result.confidence
  let base := if specIsCriticalFile result.location.file_path then base * 1.5 else base
  if result.category = .security then base * 1.2 else base

/-- Spec-side, amended: the critical keyword set with `encrypt` added —
the one change the code forces on the claim's keyword list. -/
def amendedCriticalKeywords : List String :=
  ["auth", "payment", "security", "encrypt", "secret", "admin", "permission", "access"]

/-- Spec-side, amended: critical-file test over the amended keyword
set. -/
def amendedIsCriticalFile (file_path : String) : Bool :=
  amendedCriticalKeywords.any (fun keyword => containsChars keyword.data (lowerChars file_path))

/-- Spec-side, amended: the claim's score formula over the amended
keyword set. -/
def amendedScore (result : AnalysisResult) : ℚ :=
  let base := specCategoryWeight result.category * specPriorityWeight result.priority *
    result.confidence
  let base := if amendedIsCriticalFile result.location.file_path then base * 1.5 else base
  if result.category = .security then base * 1.2 else base

/-- The pattern multiplier exactly as claim C2 words it: taken from the
learning pattern keyed by `category + "_" + priority`, defaulting to 1.0
when no such pattern exists. -/
def patternMultiplier (learning_patterns : List (String × LearningPattern))
    (result : AnalysisResult) : ℚ :=
  match learning_patterns.lookup (patternKey result) with
  | some p => p.confidence_multiplier
  | none => 1

/-- Spec-side: the calibration function exactly as claim C2 words it —
absent statistics return the confidence unchanged, present statistics
apply the clamped formula. -/
def specAdjustConfidence (learning_patterns : List (String × LearningPattern))
    (result : AnalysisResult) (feedback_stats : Option FeedbackStats) : ℚ :=
  match feedback_stats with
  | none => result.confidence
  | some stats =>
    let adjusted := result.confidence * patternMultiplier learning_patterns result +
      (stats.positiveRate.getD 0.5 - 0.5) * 0.2
    max 0 (min 1 adjusted)

/-! ### Helper lemmas on the prioritizer -/

theorem dedupLoop_sublist (l : List AnalysisResult) :
    ∀ seen, List.Sublist (dedupLoop seen l) l := by
  induction l with
  | nil => intro seen; simp [dedupLoop]
  | cons r rest ih =>
    intro seen
    simp only [dedupLoop]
    split
    · exact (ih seen).cons r
    · exact (ih _).cons₂ r

theorem sig_not_mem_of_mem_dedupLoop (l : List AnalysisResult) :
    ∀ seen f, f ∈ dedupLoop seen l → signature f ∉ seen := by
  induction l with
  | nil => intro seen f h; simp [dedupLoop] at h
  | cons r rest ih =>
    intro seen f h
    simp only [dedupLoop] at h
    split at h
    · exact ih seen f h
    · rcases List.mem_cons.mp h with rfl | h2
      · assumption
      · intro hmem
        exact ih _ f h2 (List.mem_cons_of_mem _ hmem)

theorem pairwise_sig_dedupLoop (l : List AnalysisResult) :
    ∀ seen, (dedupLoop seen l).Pairwise (fun a b => signature a ≠ signature b) := by
  induction l with
  | nil => intro seen; simp [dedupLoop]
  | cons r rest ih =>
    intro seen
    simp only [dedupLoop]
    split
    · exact ih seen
    · refine List.Pairwise.cons ?_ (ih _)
      intro g hg hsig
      exact sig_not_mem_of_mem_dedupLoop rest _ g hg
        (List.mem_cons.mpr (Or.inl hsig.symm))

theorem dedupLoop_eq_self (l : List AnalysisResult) :
    ∀ seen, l.Pairwise (fun a b => signature a ≠ signature b) →
      (∀ f ∈ l, signature f ∉ seen) → dedupLoop seen l = l := by
  induction l with
  | nil => intro seen _ _; rfl
  | cons r rest ih =>
    intro seen hp hs
    simp only [dedupLoop]
    rw [if_neg (hs r (List.mem_cons_self r rest))]
    congr 1
    refine ih _ (List.Pairwise.of_cons hp) ?_
    intro f hf hmem
    rcases List.mem_cons.mp hmem with heq | hmem2
    · exact List.rel_of_pairwise_cons hp hf heq.symm
    · exact hs f (List.mem_cons_of_mem _ hf) hmem2

theorem score_max_of_mem_dedupLoop (l : List AnalysisResult) :
    ∀ seen f, l.Pairwise scoreRel → f ∈ dedupLoop seen l →
      ∀ g ∈ l, signature g = signature f → calculateScore g ≤ calculateScore f := by
  induction l with
  | nil => intro seen f _ h; simp [dedupLoop] at h
  | cons r rest ih =>
    intro seen f hp hf g hg hsig
    simp only [dedupLoop] at hf
    split at hf
    · rcases List.mem_cons.mp hg with rfl | hg2
      · exact absurd (hsig ▸ ‹signature g ∈ seen›)
          (sig_not_mem_of_mem_dedupLoop rest seen f hf)
      · exact ih seen f (List.Pairwise.of_cons hp) hf g hg2 hsig
    · rcases List.mem_cons.mp hf with rfl | hf2
      · rcases List.mem_cons.mp hg with rfl | hg2
        · exact le_refl _
        · exact List.rel_of_pairwise_cons hp hg2
      · rcases List.mem_cons.mp hg with rfl | hg2
        · exact absurd (List.mem_cons.mpr (Or.inl hsig.symm))
            (sig_not_mem_of_mem_dedupLoop rest _ f hf2)
        · exact ih _ f (List.Pairwise.of_cons hp) hf2 g hg2 hsig

theorem mem_of_mem_prioritize {f : AnalysisResult} {results : List AnalysisResult}
    (h : f ∈ prioritize results) : f ∈ results :=
  (List.mem_insertionSort scoreRel).mp ((dedupLoop_sublist _ []).subset h)

theorem length_prioritize_le (results : List AnalysisResult) :
    (prioritize results).length ≤ results.length :=
  le_of_le_of_eq ((dedupLoop_sublist _ []).length_le)
    (List.length_insertionSort scoreRel results)

theorem pairwise_scoreRel_prioritize (results : List AnalysisResult) :
    (prioritize results).Pairwise scoreRel :=
  List.Pairwise.sublist (dedupLoop_sublist _ [])
    (List.sorted_insertionSort scoreRel results)

theorem pairwise_sig_prioritize (results : List AnalysisResult) :
    (prioritize results).Pairwise (fun a b => signature a ≠ signature b) :=
  pairwise_sig_dedupLoop _ []

theorem filter_score_orderedInsert (s : ℚ) (x : AnalysisResult) (l : List AnalysisResult) :
    (List.orderedInsert scoreRel x l).filter (fun z => decide (calculateScore z = s)) =
      if calculateScore x = s then
        x :: l.filter (fun z => decide (calculateScore z = s))
      else l.filter (fun z => decide (calculateScore z = s)) := by
  induction l with
  | nil =>
    simp only [List.orderedInsert_nil, List.filter_cons, List.filter_nil]
    by_cases hx : calculateScore x = s <;> simp [hx]
  | cons y ys ih =>
    simp only [List.orderedInsert]
    split
    · by_cases hx : calculateScore x = s <;> simp [List.filter_cons, hx]
    · rename_i hnot
      have hxy : calculateScore x < calculateScore y := lt_of_not_le hnot
      by_cases hx : calculateScore x = s
      · have hy : calculateScore y ≠ s := by
          rw [← hx]; exact ne_of_gt hxy
        simp [List.filter_cons, hy, hx, ih]
      · simp [List.filter_cons, ih, hx]

theorem filter_score_insertionSort (s : ℚ) (l : List AnalysisResult) :
    (List.insertionSort scoreRel l).filter (fun z => decide (calculateScore z = s)) =
      l.filter (fun z => decide (calculateScore z = s)) := by
  induction l with
  | nil => rfl
  | cons x xs ih =>
    simp only [List.insertionSort]
    rw [filter_score_orderedInsert, List.filter_cons]
    by_cases hx : calculateScore x = s <;> simp [hx, ih]

/-! ### Helper lemmas on the engine and the pattern matcher -/

theorem runAnalyzers_append (xs ys : List (CodeReviewRequest → Except String (List AnalysisResult)))
    (request : CodeReviewRequest) :
    runAnalyzers (xs ++ ys) request = runAnalyzers xs request ++ runAnalyzers ys request := by
  induction xs with
  | nil => simp [runAnalyzers]
  | cons a rest ih => simp [runAnalyzers, ih]

theorem runAnalyzers_eq_nil (analyzers : List (CodeReviewRequest → Except String (List AnalysisResult)))
    (request : CodeReviewRequest) (h : ∀ a ∈ analyzers, a request = .ok []) :
    runAnalyzers analyzers request = [] := by
  induction analyzers with
  | nil => rfl
  | cons a rest ih =>
    simp only [runAnalyzers, h a (List.mem_cons_self a rest)]
    exact ih fun b hb => h b (List.mem_cons_of_mem a hb)

theorem path_of_mem_findMatchesLoop (matcher : List Char → List (List Char)) (fp : String) :
    ∀ (lines : List (List Char)) (n : Nat) (m : CodeLocation × List Char),
      m ∈ findMatchesLoop matcher fp n lines → m.1.file_path = fp := by
  intro lines
  induction lines with
  | nil => intro n m h; simp [findMatchesLoop] at h
  | cons line rest ih =>
    intro n m h
    simp only [findMatchesLoop] at h
    split at h
    · exact ih _ m h
    · split at h
      · rcases List.mem_append.mp h with hin | hin
        · obtain ⟨snip, _, rfl⟩ := List.mem_map.mp hin
          rfl
        · exact ih _ m hin
      · split at h
        · exact ih _ m h
        · exact ih _ m h

theorem review_ok_inv {cfg : EngineConfig} {collab : Collaborators}
    {analyzers : List (CodeReviewRequest → Except String (List AnalysisResult))}
    {request : CodeReviewRequest} {out : List AnalysisResult}
    (h : review cfg collab analyzers request = .ok out) :
    ∃ results : List AnalysisResult,
      out = (prioritize (results.filter fun r => cfg.min_confidence ≤ r.confidence)).take
        cfg.max_results := by
  simp only [review] at h
  split at h
  · simp at h
  · exact ⟨_, (Except.ok.inj h).symm⟩

/-! ### Concrete data used by witnesses and counterexamples -/

/-- A style/info finding whose path contains `encrypt` but none of the
spec's seven critical keywords. -/
def encryptFinding : AnalysisResult :=
  { category := .style, priority := .info, confidence := 1,
    location := ⟨"crypto/encrypt.py", 1, 1⟩, title := "t",
    description := "", suggestion := "" }

/-- Feedback statistics that are present but carry zero feedback. -/
def zeroFeedbackStats : FeedbackStats :=
  { total_feedback := some 0, positiveRate := some 1 }

/-- Unanimous positive feedback over ten entries. -/
def allPositiveStats : FeedbackStats :=
  { total_feedback := some 10, positiveRate := some 1 }

/-- Unanimous negative feedback over ten entries. -/
def allNegativeStats : FeedbackStats :=
  { total_feedback := some 10, positiveRate := some 0 }

/-- Present, non-empty feedback statistics with a 0.9 positive rate. -/
def someFeedbackStats : FeedbackStats :=
  { total_feedback := some 4, positiveRate := some (9/10) }

/-- A bug/medium finding with confidence 0.5. -/
def halfConfidenceFinding : AnalysisResult :=
  { category := .bug, priority := .medium, confidence := 1/2,
    location := ⟨"src/a.py", 1, 1⟩, title := "t",
    description := "", suggestion := "" }

/-- A bug/high finding already at full confidence. -/
def fullConfidenceFinding : AnalysisResult :=
  { category := .bug, priority := .high, confidence := 1,
    location := ⟨"src/b.py", 2, 2⟩, title := "t",
    description := "", suggestion := "" }

/-! ### Claim C1 -/

/-- C1, counterexample: on a path containing `encrypt` (and no keyword of
the spec's seven-element list) the code's score differs from the claim's
formula — the code also applies the 1.5 boost for `encrypt`. -/
theorem claim1_counterexample :
    calculateScore encryptFinding ≠ specScore encryptFinding := by
  with_unfolding_all decide

/-- C1, amended: for every finding, the code's score equals the claim's
formula once `encrypt` is added to the critical keyword set — category
weight × priority weight × confidence, ×1.5 exactly when the path
case-insensitively contains one of auth, payment, security, encrypt,
secret, admin, permission, access, then ×1.2 for the security
category. -/
theorem specCategoryWeight_eq (c : AnalysisCategory) :
    specCategoryWeight c = CATEGORY_WEIGHTS c := by
  cases c <;> rfl

theorem specPriorityWeight_eq (p : PriorityLevel) :
    specPriorityWeight p = PRIORITY_WEIGHTS p := by
  cases p <;> rfl

theorem amendedIsCriticalFile_eq (fp : String) :
    amendedIsCriticalFile fp = isCriticalFile fp := rfl

theorem claim1_score_formula : ∀ result, calculateScore result = amendedScore result := by
  intro result
  simp only [calculateScore, amendedScore, specCategoryWeight_eq, specPriorityWeight_eq,
    amendedIsCriticalFile_eq]

/-! ### Claim C2 -/

/-- C2, counterexample: statistics that are present but carry
`total_feedback = 0` are returned unchanged by the code, while the
claim's formula would add the positive-ratio adjustment. -/
theorem claim2_counterexample :
    adjust_confidence [] halfConfidenceFinding (some zeroFeedbackStats) ≠
      specAdjustConfidence [] halfConfidenceFinding (some zeroFeedbackStats) := by
  with_unfolding_all decide

/-- C2, amended: the calibrator returns the confidence unchanged for
absent statistics and for present statistics with zero total feedback;
for present statistics with non-zero total feedback it returns
confidence × pattern multiplier + (positive ratio − 0.5) × 0.2 clamped to
[0,1]; and for a finding whose confidence lies in [0,1] the returned
value lies in [0,1] for any input statistics. -/
theorem claim2_confidence_calibration :
    ∀ (learning_patterns : List (String × LearningPattern)) (result : AnalysisResult)
      (feedback_stats : Option FeedbackStats),
      (feedback_stats = none →
        adjust_confidence learning_patterns result feedback_stats = result.confidence) ∧
      (∀ stats, feedback_stats = some stats → stats.total_feedback.getD 0 = 0 →
        adjust_confidence learning_patterns result feedback_stats = result.confidence) ∧
      (∀ stats, feedback_stats = some stats → stats.total_feedback.getD 0 ≠ 0 →
        adjust_confidence learning_patterns result feedback_stats =
          max 0 (min 1 (result.confidence * patternMultiplier learning_patterns result +
            (stats.positiveRate.getD 0.5 - 0.5) * 0.2))) ∧
      (0 ≤ result.confidence → result.confidence ≤ 1 →
        0 ≤ adjust_confidence learning_patterns result feedback_stats ∧
          adjust_confidence learning_patterns result feedback_stats ≤ 1) := by
  intro learning_patterns result feedback_stats
  refine ⟨?_, ?_, ?_, ?_⟩
  · rintro rfl; rfl
  · rintro stats rfl hz
    simp [adjust_confidence, hz]
  · rintro stats rfl hnz
    simp [adjust_confidence, hnz, patternMultiplier]
  · intro h0 h1
    match feedback_stats with
    | none => exact ⟨h0, h1⟩
    | some stats =>
      by_cases hz : stats.total_feedback.getD 0 = 0
      · simp only [adjust_confidence, hz, if_pos]
        exact ⟨h0, h1⟩
      · simp only [adjust_confidence, if_neg hz]
        exact ⟨le_max_left 0 _, max_le zero_le_one (min_le_left 1 _)⟩

/-- C2, witness: the amended theorem evaluated on a concrete finding and
concrete non-empty statistics. -/
theorem claim2_witness :
    adjust_confidence [] halfConfidenceFinding (some someFeedbackStats) =
      max 0 (min 1 (halfConfidenceFinding.confidence *
        patternMultiplier [] halfConfidenceFinding +
        (someFeedbackStats.positiveRate.getD 0.5 - 0.5) * 0.2)) ∧
      0 ≤ adjust_confidence [] halfConfidenceFinding (some someFeedbackStats) ∧
      adjust_confidence [] halfConfidenceFinding (some someFeedbackStats) ≤ 1 := by
  refine ⟨?_, ?_, ?_⟩
  · exact (claim2_confidence_calibration [] halfConfidenceFinding
      (some someFeedbackStats)).2.2.1 someFeedbackStats rfl (by with_unfolding_all decide)
  · exact ((claim2_confidence_calibration [] halfConfidenceFinding
      (some someFeedbackStats)).2.2.2 (by with_unfolding_all decide)
      (by with_unfolding_all decide)).1
  · exact ((claim2_confidence_calibration [] halfConfidenceFinding
      (some someFeedbackStats)).2.2.2 (by with_unfolding_all decide)
      (by with_unfolding_all decide)).2

/-! ### Claim C3 -/

/-- Two findings that differ only in description text and confidence but
share the deduplication signature; the second scores higher. -/
def dupFindingLow : AnalysisResult :=
  { category := .bug, priority := .medium, confidence := 7/10,
    location := ⟨"src/x.py", 3, 3⟩, title := "Possible bug",
    description := "first description", suggestion := "" }

/-- Same signature as `dupFindingLow`, higher score. -/
def dupFindingHigh : AnalysisResult :=
  { category := .bug, priority := .medium, confidence := 9/10,
    location := ⟨"src/x.py", 3, 3⟩, title := "Possible bug",
    description := "second description", suggestion := "" }

/-- C3: `prioritize` sorts descending by score with a stable sort (for
each score value, the sorted list restricted to that score is the input
list restricted to that score) and deduplicates afterwards: its output
has pairwise-distinct signatures, is sorted descending by score, every
kept finding scores at least as high as every input finding with the same
signature, and the list returned by `review` never contains two findings
with an identical signature. -/
theorem claim3_sort_dedup :
    (∀ results : List AnalysisResult,
      (prioritize results).Pairwise (fun a b => signature a ≠ signature b)) ∧
    (∀ results : List AnalysisResult, (prioritize results).Pairwise scoreRel) ∧
    (∀ (results : List AnalysisResult) (s : ℚ),
      (List.insertionSort scoreRel results).filter (fun r => decide (calculateScore r = s)) =
        results.filter (fun r => decide (calculateScore r = s))) ∧
    (∀ results : List AnalysisResult, ∀ f ∈ prioritize results, ∀ g ∈ results,
      signature g = signature f → calculateScore g ≤ calculateScore f) ∧
    (∀ cfg collab analyzers request out,
      review cfg collab analyzers request = .ok out →
      out.Pairwise (fun a b => signature a ≠ signature b)) := by
  refine ⟨fun results => pairwise_sig_prioritize results,
    fun results => pairwise_scoreRel_prioritize results,
    fun results s => filter_score_insertionSort s results, ?_, ?_⟩
  · intro results f hf g hg hsig
    exact score_max_of_mem_dedupLoop (List.insertionSort scoreRel results) [] f
      (List.sorted_insertionSort scoreRel results) hf g
      ((List.mem_insertionSort scoreRel).mpr hg) hsig
  · intro cfg collab analyzers request out h
    obtain ⟨results, rfl⟩ := review_ok_inv h
    exact List.Pairwise.sublist (List.take_sublist _ _) (pairwise_sig_prioritize _)

/-- C3, witness: on a concrete duplicate pair the kept finding scores at
least as high as the dropped one with the same signature. -/
theorem claim3_witness :
    calculateScore dupFindingLow ≤ calculateScore dupFindingHigh :=
  claim3_sort_dedup.2.2.2.1 [dupFindingLow, dupFindingHigh] dupFindingHigh
    (by with_unfolding_all decide) dupFindingLow (by with_unfolding_all decide)
    (by with_unfolding_all decide)

/-! ### Claim C7 -/

/-- C7: the prioritizer is idempotent — running `prioritize` on its own
output returns the same list, elements and order included. -/
theorem claim7_prioritize_idempotent :
    ∀ results : List AnalysisResult, prioritize (prioritize results) = prioritize results := by
  intro results
  have hsorted : (prioritize results).Pairwise scoreRel := pairwise_scoreRel_prioritize results
  have hsig : (prioritize results).Pairwise (fun a b => signature a ≠ signature b) :=
    pairwise_sig_prioritize results
  show dedupLoop [] (List.insertionSort scoreRel (prioritize results)) = prioritize results
  rw [List.Sorted.insertionSort_eq hsorted]
  exact dedupLoop_eq_self _ [] hsig (fun f _ => List.not_mem_nil _)

/-! ### Claim C10 -/

/-- C10: prioritization only reorders and removes findings — every output
element is an element of the input (hence identical in category,
priority, confidence, location, title, description and metadata), and the
output is no longer than the input. -/
theorem claim10_no_new_findings :
    ∀ results : List AnalysisResult,
      (∀ f ∈ prioritize results, f ∈ results) ∧
        (prioritize results).length ≤ results.length :=
  fun results =>
    ⟨fun _ hf => mem_of_mem_prioritize hf, length_prioritize_le results⟩

/-- C10, witness: the kept element of a concrete duplicate pair is an
element of the input list. -/
theorem claim10_witness : dupFindingHigh ∈ [dupFindingLow, dupFindingHigh] :=
  (claim10_no_new_findings [dupFindingLow, dupFindingHigh]).1 dupFindingHigh
    (by with_unfolding_all decide)

/-! ### Claim C4 -/

/-- Collaborators whose external calls all succeed and change nothing. -/
def benignCollab : Collaborators :=
  { teamContext := {}
    storePr := fun _ => .ok ()
    gatherHist := fun _ => {}
    enhance := fun results _ => .ok results
    adjustLearn := fun r => .ok r }

/-- A style/info finding below the default engine confidence
threshold. -/
def lowConfidenceFinding : AnalysisResult :=
  { category := .style, priority := .info, confidence := 3/10,
    location := ⟨"src/c.py", 4, 4⟩, title := "minor style",
    description := "", suggestion := "" }

/-- A request with no file diffs. -/
def emptyDiffRequest : CodeReviewRequest := { diff := [] }

/-- C4: whenever `review` returns a result list, no returned finding has
confidence below the engine-level `min_confidence`, and the list holds at
most `max_results` findings. -/
theorem claim4_filter_truncate :
    ∀ cfg collab analyzers request out,
      review cfg collab analyzers request = .ok out →
      (∀ f ∈ out, cfg.min_confidence ≤ f.confidence) ∧ out.length ≤ cfg.max_results := by
  intro cfg collab analyzers request out h
  obtain ⟨results, rfl⟩ := review_ok_inv h
  constructor
  · intro f hf
    have h1 : f ∈ prioritize (results.filter fun r => cfg.min_confidence ≤ r.confidence) :=
      List.mem_of_mem_take hf
    have h2 := mem_of_mem_prioritize h1
    exact of_decide_eq_true (List.mem_filter.mp h2).2
  · exact List.length_take_le _ _

/-- C4, witness: a concrete run with one analyzer returning one finding
above and one below the threshold keeps only the high-confidence one and
respects the result budget. -/
theorem claim4_witness :
    ({} : EngineConfig).min_confidence ≤ dupFindingLow.confidence ∧
      [dupFindingLow].length ≤ ({} : EngineConfig).max_results := by
  have h := claim4_filter_truncate {} benignCollab
    [fun _ => .ok [dupFindingLow, lowConfidenceFinding]] emptyDiffRequest [dupFindingLow]
    (by with_unfolding_all rfl)
  exact ⟨h.1 dupFindingLow (by with_unfolding_all decide), h.2⟩

/-! ### Claim C5 -/

/-- C5: a raising analyzer is skipped — `review` with a failing analyzer
inserted anywhere returns exactly what it returns without it, so the
error does not propagate and the remaining analyzers' findings are
kept. -/
theorem claim5_fault_isolation :
    ∀ (cfg : EngineConfig) (collab : Collaborators)
      (before after : List (CodeReviewRequest → Except String (List AnalysisResult)))
      (msg : String) (request : CodeReviewRequest),
      review cfg collab (before ++ (fun _ => .error msg) :: after) request =
        review cfg collab (before ++ after) request := by
  intro cfg collab before after msg request
  simp [review, runAnalyzers_append, runAnalyzers]

/-! ### Claim C6 -/

/-- A pattern-table entry whose matcher reports every line it is given
(standing in for a regex that always matches). -/
def secretPattern : PatternConfig :=
  { matcher := fun line => [line]
    category := .security
    priority := .critical
    confidence := 8/10
    message := "Potential hardcoded secret detected"
    suggestion := "Use environment variables" }

/-- A one-entry pattern table for the modelled pattern matcher. -/
def wPatterns : List (String × PatternConfig) := [("hardcoded_secret", secretPattern)]

/-- Collaborators whose historical enhancement call fails. -/
def failingEnhanceCollab : Collaborators :=
  { benignCollab with enhance := fun _ _ => .error "enhance failed" }

/-- An analyzer that always returns an empty finding list. -/
def constEmptyAnalyzer : CodeReviewRequest → Except String (List AnalysisResult) :=
  fun _ => .ok []

/-- C6, counterexample: a request with an empty diff set is not rejected —
`review` returns `ok []` — and a non-`InvalidRequest` collaborator error
(from the unwrapped enhancement call) propagates out of `review`. -/
theorem claim6_counterexample :
    review {} benignCollab [fun r => .ok (patternMatcherAnalyze wPatterns r)]
        emptyDiffRequest = .ok [] ∧
      review {} failingEnhanceCollab [fun r => .ok (patternMatcherAnalyze wPatterns r)]
        emptyDiffRequest = .error "enhance failed" := by
  constructor
  · with_unfolding_all rfl
  · with_unfolding_all rfl

/-- C6, amended: `review` performs no validation of the diff set — a
request with an empty diff set is processed normally: when every analyzer
returns no findings on empty-diff requests and the enhancement call
succeeds on the empty list, `review` returns `ok []`; and the engine has
no dedicated request error — what can propagate out of `review` is an
error of the unwrapped historical-enhancement call. -/
theorem claim6_no_request_validation :
    (∀ cfg collab analyzers request,
      request.diff = [] →
      (∀ a ∈ analyzers, ∀ r : CodeReviewRequest, r.diff = [] → a r = .ok []) →
      (∀ hist, collab.enhance [] hist = .ok []) →
      review cfg collab analyzers request = .ok []) ∧
    (∀ cfg collab analyzers request msg tc,
      request.team_context = some tc →
      cfg.enable_historical = true →
      collab.enhance (runAnalyzers analyzers request) (collab.gatherHist request) =
        .error msg →
      review cfg collab analyzers request = .error msg) := by
  constructor
  · intro cfg collab analyzers request hdiff hana henh
    simp only [review]
    cases hteam : request.team_context with
    | none =>
      have hdiff2 : ({ request with team_context := some collab.teamContext } :
          CodeReviewRequest).diff = [] := hdiff
      rw [runAnalyzers_eq_nil _ _ (fun a ha => hana a ha _ hdiff2)]
      cases hh : cfg.enable_historical <;>
        simp [henh, applyLearning, prioritize, deduplicate, dedupLoop, List.insertionSort]
    | some tc =>
      rw [runAnalyzers_eq_nil _ _ (fun a ha => hana a ha _ hdiff)]
      cases hh : cfg.enable_historical <;>
        simp [henh, applyLearning, prioritize, deduplicate, dedupLoop, List.insertionSort]
  · intro cfg collab analyzers request msg tc hteam hhist herr
    simp only [review, hteam, hhist, if_true, herr]

/-- C6, witness: the amended theorem evaluated on concrete inputs — the
empty-diff request reviewed with an analyzer that finds nothing. -/
theorem claim6_witness :
    review {} benignCollab [constEmptyAnalyzer] emptyDiffRequest = .ok [] :=
  claim6_no_request_validation.1 {} benignCollab [constEmptyAnalyzer] emptyDiffRequest rfl
    (fun a ha r _ => by
      rcases List.mem_singleton.mp ha with rfl
      rfl)
    (fun _ => rfl)

/-! ### Claim C8 -/

/-- C8, counterexample: at full confidence the all-positive statistics do
not strictly increase confidence — the clamp holds it at 1. -/
theorem claim8_counterexample :
    ¬ (fullConfidenceFinding.confidence <
        adjust_confidence [] fullConfidenceFinding (some allPositiveStats)) := by
  with_unfolding_all decide

/-- C8, amended: for a finding with no applicable learned pattern and
confidence strictly between 0 and 1, statistics with positive ratio 1.0
and total feedback 10 strictly increase the confidence, and positive
ratio 0.0 strictly decreases it. -/
theorem claim8_feedback_direction :
    ∀ (learning_patterns : List (String × LearningPattern)) (result : AnalysisResult),
      learning_patterns.lookup (patternKey result) = none →
      0 < result.confidence → result.confidence < 1 →
      result.confidence < adjust_confidence learning_patterns result (some allPositiveStats) ∧
        adjust_confidence learning_patterns result (some allNegativeStats) <
          result.confidence := by
  intro learning_patterns result hlk h0 h1
  have e1 : adjust_confidence learning_patterns result (some allPositiveStats) =
      max 0 (min 1 (result.confidence + 1/10)) := by
    simp [adjust_confidence, allPositiveStats, hlk]
    norm_num
  have e2 : adjust_confidence learning_patterns result (some allNegativeStats) =
      max 0 (min 1 (result.confidence - 1/10)) := by
    simp [adjust_confidence, allNegativeStats, hlk]
    norm_num
    rw [sub_eq_add_neg]
  constructor
  · rw [e1, max_def, min_def]
    split_ifs <;> linarith
  · rw [e2, max_def, min_def]
    split_ifs <;> linarith

/-- C8, witness: the amended theorem evaluated at a concrete finding with
confidence 0.5 and an empty learning-pattern table. -/
theorem claim8_witness :
    halfConfidenceFinding.confidence <
        adjust_confidence [] halfConfidenceFinding (some allPositiveStats) ∧
      adjust_confidence [] halfConfidenceFinding (some allNegativeStats) <
        halfConfidenceFinding.confidence :=
  claim8_feedback_direction [] halfConfidenceFinding rfl
    (by with_unfolding_all decide) (by with_unfolding_all decide)

/-! ### Claim C9 -/

/-- A removed file diff. -/
def removedDiff : FileDiff :=
  { file_path := "old.py", status := .removed, diff := "+x", language := some "python" }

/-- A modified python diff adding one line. -/
def addedDiff : FileDiff :=
  { file_path := "auth/login.py", status := .modified,
    diff := "+password = 1", language := some "python" }

/-- A request containing a removed diff and a modified diff. -/
def twoDiffRequest : CodeReviewRequest := { diff := [removedDiff, addedDiff] }

/-- The finding the modelled pattern matcher produces on
`twoDiffRequest` with the `wPatterns` table. -/
def secretFinding : AnalysisResult :=
  { category := .security, priority := .critical, confidence := 8/10,
    location := ⟨"auth/login.py", 1, 1⟩,
    title := "Potential hardcoded secret detected",
    description := "Found hardcoded_secret pattern in auth/login.py",
    suggestion := "Use environment variables",
    code_snippet := some "password = 1",
    metadata := [("pattern_name", "hardcoded_secret")] }

/-- C9: every finding returned by the pattern-matcher analyzer is located
at the path of a diff whose status is not `removed` and whose language is
non-null and not `"binary"`. -/
theorem claim9_skips_removed_and_binary :
    ∀ (patterns : List (String × PatternConfig)) (request : CodeReviewRequest)
      (f : AnalysisResult),
      f ∈ patternMatcherAnalyze patterns request →
      ∃ d, d ∈ request.diff ∧ d.status ≠ DiffStatus.removed ∧ d.language ≠ none ∧
        d.language ≠ some "binary" ∧ f.location.file_path = d.file_path := by
  intro patterns request f hf
  have hf1 : f ∈ (request.diff.map (analyzeFileDiff patterns)).flatten :=
    List.mem_of_mem_filter hf
  rw [List.mem_flatten] at hf1
  obtain ⟨l, hl, hfl⟩ := hf1
  rw [List.mem_map] at hl
  obtain ⟨d, hd, rfl⟩ := hl
  simp only [analyzeFileDiff] at hfl
  split at hfl
  · simp at hfl
  · split at hfl
    · simp at hfl
    · rename_i hstatus hlang
      rw [List.mem_flatten] at hfl
      obtain ⟨l2, hl2, hfl2⟩ := hfl
      rw [List.mem_map] at hl2
      obtain ⟨pc, _, rfl⟩ := hl2
      obtain ⟨pattern_name, config⟩ := pc
      rw [List.mem_map] at hfl2
      obtain ⟨m, hm, rfl⟩ := hfl2
      simp only [Bool.or_eq_true, decide_eq_true_eq, not_or] at hlang
      exact ⟨d, hd, hstatus, hlang.1.1, hlang.2,
        path_of_mem_findMatchesLoop config.matcher d.file_path _ _ m hm⟩

/-- C9, witness: the theorem evaluated on a concrete request holding a
removed diff and a modified python diff. -/
theorem claim9_witness :
    ∃ d, d ∈ twoDiffRequest.diff ∧ d.status ≠ DiffStatus.removed ∧ d.language ≠ none ∧
      d.language ≠ some "binary" ∧ secretFinding.location.file_path = d.file_path :=
  claim9_skips_removed_and_binary wPatterns twoDiffRequest secretFinding
    (by with_unfolding_all decide)
